import Mathlib

/-!
Verification development for the Secure Debug Manager (SDM) API
(`include/secure_debug_manager.h`).

The repository ships only the API header: the data model (return codes,
device descriptors, register-access descriptors, forms, session parameters)
is declared there, while the behaviour of the host callbacks and of the
plugin entry points is given by the header's documentation and the
accompanying specification.  The definitions below therefore embed the
declared data model directly, and model the behavioural contract
(batched register access, poll-with-retry, device-descriptor resolution,
aligned memory transfers, the session state machine, and form
presentation) from the specification text.
-/

/-- Return codes for SDM APIs and callbacks (enum SDMReturnCodeEnum). -/
inductive SDMReturnCode : Type where
  | Success
  | RequestFailed
  | InvalidUserCredentials
  | InvalidArgument
  | UserCancelled
  | UnsupportedOperation
  | IOError
  | TimeoutError
  | UnsupportedTransferSize
  | TransferFault
  | TransferError
  | InternalError
deriving DecidableEq, Repr

/-- Numeric values of the return codes, as fixed by `enum SDMReturnCodeEnum`. -/
def SDMReturnCode.toCode : SDMReturnCode → Nat
  | .Success => 0
  | .RequestFailed => 1
  | .InvalidUserCredentials => 2
  | .InvalidArgument => 3
  | .UserCancelled => 4
  | .UnsupportedOperation => 5
  | .IOError => 6
  | .TimeoutError => 7
  | .UnsupportedTransferSize => 8
  | .TransferFault => 9
  | .TransferError => 10
  | .InternalError => 11

/-- Debug architectures (enum SDMDebugArchitectureEnum). -/
inductive SDMDebugArchitecture : Type where
  | ArmADIv5
  | ArmADIv6
  | Nexus5001
deriving DecidableEq, Repr

/-- Current API major version (enum SDMVersionEnum). -/
def SDMVersion_CurrentMajor : Nat := 1

/-- Current API minor version (enum SDMVersionEnum). -/
def SDMVersion_CurrentMinor : Nat := 0

/-- Transfer size constants (enum SDMTransferSizeEnum); values are bit widths. -/
def SDMTransferSize_8 : Nat := 8

/-- 16-bit transfer size constant. -/
def SDMTransferSize_16 : Nat := 16

/-- 32-bit transfer size constant. -/
def SDMTransferSize_32 : Nat := 32

/-- 64-bit transfer size constant. -/
def SDMTransferSize_64 : Nat := 64

/-- Register access operation (enum SDMRegisterAccessOpEnum). -/
inductive SDMRegisterAccessOp : Type where
  | Read
  | Write
  | Poll
deriving DecidableEq, Repr

/-- Numeric values of the register access operations, as fixed by the header. -/
def SDMRegisterAccessOp.toCode : SDMRegisterAccessOp → Nat
  | .Read => 1
  | .Write => 2
  | .Poll => 3

/-- One entry of a register-access batch (struct SDMRegisterAccess).
`value` models the contents of the `uint32_t *value` slot at call time
(read destination, write source, or poll match value depending on `op`);
`pollMask` and `retries` are only meaningful for `Poll`, where a zero
retry count means "retry forever", subject to a host-imposed ceiling. -/
structure SDMRegisterAccess : Type where
  address : Nat
  op : SDMRegisterAccessOp
  value : Nat
  pollMask : Nat
  retries : Nat
deriving DecidableEq, Repr

/-- Modelled from the spec: the retry bound actually applied to one poll
entry.  The header's `registerAccess` callback is not implemented in the
repository; per its contract a positive `retries` value is the budget,
while zero means retry indefinitely, bounded only by the host-imposed
ceiling. -/
def pollBound (retries ceiling : Nat) : Nat :=
  if retries = 0 then ceiling else retries

/-- Modelled from the spec: the poll loop of the `registerAccess` callback
(not implemented in the repository).  `reads i` is the value produced by
the i-th read of the polled register; each read value is ANDed with
`mask` and compared with the match value `mv`; polling stops on the first
match or when the allowed number of reads is exhausted.  Returns whether
a match occurred and how many reads were performed, starting at read
index `i` with `fuel` reads allowed. -/
def pollRun (reads : Nat → Nat) (mask mv : Nat) : Nat → Nat → Bool × Nat
  | _, 0 => (false, 0)
  | i, fuel + 1 =>
    if reads i &&& mask = mv then (true, 1)
    else
      let r := pollRun reads mask mv (i + 1) fuel
      (r.1, r.2 + 1)

/-- Modelled from the spec: the batch execution loop of the
`registerAccess` callback (not implemented in the repository).  Entries
are executed in order by `step`; the batch aborts at the first entry
whose step result is not `Success`, and the middle component counts how
many entries fully completed. -/
def runBatch {σ : Type} (step : σ → SDMRegisterAccess → SDMReturnCode × σ) :
    List SDMRegisterAccess → σ → SDMReturnCode × Nat × σ
  | [], s => (.Success, 0, s)
  | a :: rest, s =>
    let r := step s a
    if r.1 = SDMReturnCode.Success then
      let rr := runBatch step rest r.2
      (rr.1, rr.2.1 + 1, rr.2.2)
    else (r.1, 0, r.2)

/-- Modelled from the spec: the target's register file as seen through one
device, mapping a register address to its current value, or `none` for an
address whose access faults. -/
def RegFile : Type := Nat → Option Nat

/-- Modelled from the spec: execution of a single register-access entry by
the host (the `registerAccess` callback is not implemented in the
repository).  A read fetches the register value; a write stores the
entry's value slot; a poll repeatedly reads, masks with `pollMask` and
compares with the entry's value slot, failing with `TimeoutError` when
the applied retry bound is exhausted.  `ts` is the batch's single
transfer width, shared by every entry. -/
def regStep (ceiling ts : Nat) (f : RegFile) (a : SDMRegisterAccess) :
    SDMReturnCode × RegFile :=
  match a.op with
  | .Read =>
    match f a.address with
    | some _ => (.Success, f)
    | none => (.TransferFault, f)
  | .Write =>
    match f a.address with
    | some _ => (.Success, fun x => if x = a.address then some a.value else f x)
    | none => (.TransferFault, f)
  | .Poll =>
    match f a.address with
    | some v =>
      if (pollRun (fun _ => v) a.pollMask a.value 0 (pollBound a.retries ceiling)).1
      then (.Success, f)
      else (.TimeoutError, f)
    | none => (.TransferFault, f)

/-- Modelled from the spec: the host's `registerAccess` callback entry
point (not implemented in the repository).  All entries share the single
transfer width `transferSize`; in SDM API v1.0 only 32-bit transfers are
allowed, so any other width fails with `UnsupportedTransferSize` before
any entry is executed.  Returns the result code, the number of completed
accesses, and the final register file. -/
def registerAccess (ceiling : Nat) (f : RegFile) (transferSize : Nat)
    (accesses : List SDMRegisterAccess) : SDMReturnCode × Nat × RegFile :=
  if transferSize = SDMTransferSize_32 then
    runBatch (regStep ceiling transferSize) accesses f
  else (.UnsupportedTransferSize, 0, f)

/-- Supported device descriptor types (enum SDMDeviceTypeEnum) are an Arm
ADI Access Port and an Arm ADI CoreSight component; the descriptor itself
(struct SDMDeviceDescriptor) is the corresponding tagged union.  For an
AP, `address` is the 8-bit AP index for v1 APs in ADIv5 (only the low 8
bits are used) or the up-to-64-bit AP base address for v2 APs in ADIv6.
For a CoreSight component, `memAp` is the descriptor of the MEM-AP
through which the component is accessed (`none` meaning the component is
within the DP's own address space), and `baseAddress` is the component's
base within that MEM-AP's address space. -/
inductive SDMDeviceDescriptor : Type where
  | armAP (dpIndex : Nat) (address : Nat)
  | armCoreSightComponent (dpIndex : Nat) (memAp : Option SDMDeviceDescriptor)
      (baseAddress : Nat)
deriving Repr

/-- Modelled from the spec: the significant part of an AP descriptor's
64-bit `address` field.  The header documents that for v1 APs in ADIv5
only the low 8 bits are used, while for ADIv6 the full (64-bit) AP base
address is significant.  No resolver implementation is in the
repository. -/
def apEffectiveAddress (arch : SDMDebugArchitecture) (address : Nat) : Nat :=
  match arch with
  | .ArmADIv5 => address % 256
  | _ => address % 2 ^ 64

/-- Modelled from the spec: the host environment the resolver runs in,
assigning a concrete base address to each Access Port (by debug-port
index and effective AP address) and to each debug port's own address
space.  The resolver itself is host code absent from the repository. -/
structure ResolveEnv : Type where
  apBase : Nat → Nat → Nat
  dpBase : Nat → Nat

/-- Modelled from the spec: resolution of a device descriptor to the base
address of its addressable region (Device Descriptor Resolver, absent
from the repository).  An AP resolves to the host-assigned base for its
effective address; a CoreSight component resolves to its referenced
MEM-AP's base (or, when the reference is absent, the owning debug port's
own space) plus the component's base offset. -/
def resolveBase (env : ResolveEnv) (arch : SDMDebugArchitecture) :
    SDMDeviceDescriptor → Nat
  | .armAP dp a => env.apBase dp (apEffectiveAddress arch a)
  | .armCoreSightComponent dp none b => env.dpBase dp + b
  | .armCoreSightComponent _ (some m) b => resolveBase env arch m + b

/-- Size in bytes of a CoreSight component's addressable region (the
header fixes a 4 kB memory region per component). -/
def coreSightRegionSize : Nat := 4096

/-- Modelled from the spec: resolution of a requested address/offset
against a device descriptor (Device Descriptor Resolver, absent from the
repository).  For an AP the offset is an address within the space the AP
exposes; for a CoreSight component the offset is relative to the
component's base and is bounded by the component's 4 kB region, an
out-of-range offset failing with `InvalidArgument`. -/
def resolveAddr (env : ResolveEnv) (arch : SDMDebugArchitecture)
    (d : SDMDeviceDescriptor) (offset : Nat) : Except SDMReturnCode Nat :=
  match d with
  | .armAP .. => .ok (resolveBase env arch d + offset)
  | .armCoreSightComponent .. =>
    if offset < coreSightRegionSize then .ok (resolveBase env arch d + offset)
    else .error .InvalidArgument

/-- Modelled from the spec: bytes per transfer unit for each supported
transfer size (bit widths 8/16/32/64 from `enum SDMTransferSizeEnum`);
any other width is unsupported. -/
def transferSizeBytes (ts : Nat) : Option Nat :=
  if ts = 8 then some 1
  else if ts = 16 then some 2
  else if ts = 32 then some 4
  else if ts = 64 then some 8
  else none

/-- Modelled from the spec: assembling one transfer unit of `bytes` bytes
read from byte-addressed memory `mem` at `addr` (little-endian). -/
def readUnit (mem : Nat → Nat) (addr bytes : Nat) : Nat :=
  ((List.range bytes).map fun i => mem (addr + i) % 256 * 256 ^ i).sum

/-- Modelled from the spec: the host's `readMemory` callback (not
implemented in the repository).  Performs `count` consecutive transfers
of the requested width, the n-th at `address + n * bytes`; an address not
aligned to the transfer size fails with `InvalidArgument`, and a width
other than 8/16/32/64 bits fails with `UnsupportedTransferSize`. -/
def readMemory (mem : Nat → Nat) (address transferSize count : Nat) :
    Except SDMReturnCode (List Nat) :=
  match transferSizeBytes transferSize with
  | none => .error .UnsupportedTransferSize
  | some b =>
    if address % b = 0 then
      .ok ((List.range count).map fun n => readUnit mem (address + n * b) b)
    else .error .InvalidArgument

/-- Modelled from the spec: storing one transfer unit of `bytes` bytes
into byte-addressed memory at `addr` (little-endian). -/
def writeUnit (mem : Nat → Nat) (addr bytes v : Nat) : Nat → Nat :=
  fun x => if addr ≤ x ∧ x < addr + bytes then v / 256 ^ (x - addr) % 256 else mem x

/-- Modelled from the spec: the host's `writeMemory` callback (not
implemented in the repository).  Performs `count` consecutive transfers
of the requested width, the n-th at `address + n * bytes`, with the same
alignment and width checks as `readMemory`. -/
def writeMemory (mem : Nat → Nat) (address transferSize count : Nat)
    (data : Nat → Nat) : Except SDMReturnCode (Nat → Nat) :=
  match transferSizeBytes transferSize with
  | none => .error .UnsupportedTransferSize
  | some b =>
    if address % b = 0 then
      .ok ((List.range count).foldl
        (fun m n => writeUnit m (address + n * b) b (data n)) mem)
    else .error .InvalidArgument

/-- Debugger connection modes (enum SDMConnectModeEnum). -/
inductive SDMConnectMode : Type where
  | Load
  | Restart
  | Attach
deriving DecidableEq, Repr

/-- Target protection states (enum SDMTargetProtectionStateEnum). -/
inductive SDMTargetProtectionState : Type where
  | Unlocked
  | Locked
deriving DecidableEq, Repr

/-- The session-relevant part of the parameters passed to SDMOpen
(struct SDMOpenParameters). -/
structure SDMOpenParameters : Type where
  versionMajor : Nat
  versionMinor : Nat
  debugArchitecture : SDMDebugArchitecture
  connectMode : SDMConnectMode
deriving DecidableEq, Repr

/-- Parameters passed to SDMAuthenticate (struct
SDMAuthenticateParameters). -/
structure SDMAuthenticateParameters : Type where
  isLastAuthentication : Bool
deriving DecidableEq, Repr

/-- Modelled from the spec: the lifecycle phase of one session handle.
The plugin entry points (SDMOpen, SDMAuthenticate, SDMResumeBoot,
SDMClose, SDMGetTargetProtectionState) are only declared in the
repository; the state machine they implement is taken from the
specification.  A handle is unopened, open (recording how many
authentication rounds have succeeded and which plugin-owned resources
are held), or closed (terminal). -/
inductive SDMSessionPhase : Type where
  | preOpen
  | openedPhase (authSuccesses : Nat) (resources : List Nat)
  | closedPhase
deriving DecidableEq, Repr

/-- Modelled from the spec: the plugin-owned resources held in a given
session phase; an unopened or closed session holds none. -/
def heldResources : SDMSessionPhase → List Nat
  | .openedPhase _ rs => rs
  | _ => []

/-- Modelled from the spec: outcomes the plugin's protocol logic can
produce while a session is open (variability that is outside the state
machine itself): the result of a protection-state query, of each
authentication round (by round number and `isLastAuthentication` flag),
of a resume-boot request, and the resources each successful
authentication round allocates. -/
structure SDMPluginBehavior : Type where
  protResult : SDMReturnCode
  authResult : Nat → Bool → SDMReturnCode
  resumeResult : SDMReturnCode
  allocOnAuth : Nat → List Nat

/-- The operations callable on an already-opened handle. -/
inductive SDMOp : Type where
  | opGetTargetProtectionState
  | opAuthenticate (params : SDMAuthenticateParameters)
  | opResumeBoot
  | opClose
deriving DecidableEq, Repr

/-- Modelled from the spec: SDMOpen (declared but not implemented in the
repository).  Opening validates the parameters — the major version must
match a supported value — and moves an unopened handle to the open
phase; malformed parameters or an already-opened/closed handle fail with
`RequestFailed` and leave the phase unchanged. -/
def sdmOpen (p : SDMOpenParameters) (s : SDMSessionPhase) :
    SDMReturnCode × SDMSessionPhase :=
  match s with
  | .preOpen =>
    if p.versionMajor = SDMVersion_CurrentMajor then (.Success, .openedPhase 0 [])
    else (.RequestFailed, .preOpen)
  | other => (.RequestFailed, other)

/-- Modelled from the spec: the session state machine step for the
operations on an opened handle (SDMGetTargetProtectionState,
SDMAuthenticate, SDMResumeBoot, SDMClose; all declared but not
implemented in the repository).  Any operation on an unopened or closed
handle fails deterministically with `RequestFailed` and leaves the phase
unchanged.  On an open handle: a protection-state query leaves the phase
unchanged; a successful authentication round increments the round count
and may allocate resources; resume-boot requires at least one successful
authentication; close always succeeds and is terminal. -/
def sdmStep (b : SDMPluginBehavior) (s : SDMSessionPhase) (op : SDMOp) :
    SDMReturnCode × SDMSessionPhase :=
  match s with
  | .preOpen => (.RequestFailed, .preOpen)
  | .closedPhase => (.RequestFailed, .closedPhase)
  | .openedPhase n rs =>
    match op with
    | .opGetTargetProtectionState => (b.protResult, .openedPhase n rs)
    | .opAuthenticate params =>
      let c := b.authResult n params.isLastAuthentication
      if c = SDMReturnCode.Success then
        (c, .openedPhase (n + 1) (b.allocOnAuth n ++ rs))
      else (c, .openedPhase n rs)
    | .opResumeBoot =>
      if 0 < n then (b.resumeResult, .openedPhase n rs)
      else (.RequestFailed, .openedPhase n rs)
    | .opClose => (.Success, .closedPhase)

/-- Control state values for checkboxes (enum SDMControlStateEnum). -/
inductive SDMControlState : Type where
  | Active
  | Inactive
  | Mixed
deriving DecidableEq, Repr

/-- One element of a user-input form (struct SDMFormElement, with the
union collapsed to the fields the form contract constrains).  Strings
are modelled as UTF-8 byte lists.  For `textField` and `pathSelect`,
`bufferLength` is the declared byte capacity of the caller-owned buffer
and `initial` its input contents; for `itemSelect`, `itemCount` is the
number of items and `selectionIndex` the zero-based initial selection,
`-1` meaning "no selection". -/
inductive SDMFormElement : Type where
  | staticText (text : List Nat)
  | textField (bufferLength : Nat) (initial : List Nat) (isPassword : Bool)
  | checkbox (initial : SDMControlState) (isTristate : Bool)
  | pathSelect (bufferLength : Nat) (initial : List Nat) (isFolder : Bool)
  | itemSelect (itemCount : Nat) (selectionIndex : Int)
deriving DecidableEq, Repr

/-- A user-input form (struct SDMForm). -/
structure SDMForm : Type where
  flags : Nat
  elements : List SDMFormElement
deriving DecidableEq, Repr

/-- The per-element output slots populated in place by a completed form
(the output halves of the struct SDMFormElement union). -/
inductive SDMFormElementResult : Type where
  | staticText
  | textField (contents : List Nat)
  | checkbox (state : SDMControlState)
  | pathSelect (path : List Nat)
  | itemSelect (selectionIndex : Int)
deriving DecidableEq, Repr

/-- Modelled from the spec: the user's interaction with a presented form
(the host's UI is absent from the repository): whether the form was
cancelled, and the raw value the user supplied for the element at each
index. -/
structure SDMUserResponse : Type where
  cancelled : Bool
  text : Nat → List Nat
  check : Nat → SDMControlState
  path : Nat → List Nat
  selection : Nat → Int

/-- Modelled from the spec: validity of one form element's declared
inputs (the host's form validation is absent from the repository).  Text
and path buffers must have nonzero capacity and initial contents leaving
room for the terminating null; an initial selection index must be `-1`
or a zero-based index below the item count. -/
def validInitial : SDMFormElement → Bool
  | .staticText _ => true
  | .textField len init _ => decide (0 < len) && decide (init.length ≤ len - 1)
  | .checkbox _ _ => true
  | .pathSelect len init _ => decide (0 < len) && decide (init.length ≤ len - 1)
  | .itemSelect k s => decide (s = -1 ∨ (0 ≤ s ∧ s < (k : Int)))

/-- Modelled from the spec: the selection index the host UI reports for
an item-select element — the UI can only produce "no selection" (`-1`)
or a valid zero-based index, so anything else collapses to `-1`. -/
def normSelection (k : Nat) (s : Int) : Int :=
  if s = -1 ∨ (0 ≤ s ∧ s < (k : Int)) then s else -1

/-- Modelled from the spec: how the host fills one element's output slot
from the user's response on form completion.  Entered text is limited so
that, with the terminating null, it fits the declared buffer
capacity. -/
def fillElement (resp : SDMUserResponse) (i : Nat) :
    SDMFormElement → SDMFormElementResult
  | .staticText _ => .staticText
  | .textField len _ _ => .textField ((resp.text i).take (len - 1))
  | .checkbox _ _ => .checkbox (resp.check i)
  | .pathSelect len _ _ => .pathSelect ((resp.path i).take (len - 1))
  | .itemSelect k _ => .itemSelect (normSelection k (resp.selection i))

/-- Modelled from the spec: filling every element of a form in order,
the element at position `j` of the list being element `i + j` of the
form. -/
def fillForm (resp : SDMUserResponse) : Nat → List SDMFormElement →
    List SDMFormElementResult
  | _, [] => []
  | i, e :: rest => fillElement resp i e :: fillForm resp (i + 1) rest

/-- Modelled from the spec: the host's `presentForm` callback (not
implemented in the repository).  A form whose descriptors violate their
preconditions fails with `InvalidArgument`; a cancelled form fails with
`UserCancelled` and populates no outputs; otherwise every element's
output slot is populated from the user's response and the call
succeeds. -/
def presentForm (resp : SDMUserResponse) (form : SDMForm) :
    SDMReturnCode × List SDMFormElementResult :=
  if form.elements.all validInitial then
    if resp.cancelled then (.UserCancelled, [])
    else (.Success, fillForm resp 0 form.elements)
  else (.InvalidArgument, [])

/-- A concrete resolver environment used to exercise the resolution
theorems on closed inputs. -/
def demoEnv : ResolveEnv :=
  ⟨fun dp a => dp * 100000 + a * 100, fun dp => dp * 7 + 3⟩

/-- A concrete register file used to exercise the batch theorems on
closed inputs: addresses below 100 read as address + 40, higher
addresses fault. -/
def demoRegs : RegFile :=
  fun a => if a < 100 then some (a + 40) else none

/-- A concrete user response used to exercise the form theorems on
closed inputs. -/
def demoResp : SDMUserResponse :=
  ⟨false, fun _ => [65, 66, 67, 68, 69, 70], fun _ => .Active,
   fun _ => [47, 97], fun _ => 1⟩

theorem pollRun_no_match (reads : Nat → Nat) (mask mv : Nat)
    (h : ∀ j, reads j &&& mask ≠ mv) :
    ∀ fuel i, pollRun reads mask mv i fuel = (false, fuel) := by
  intro fuel
  induction fuel with
  | zero => intro i; rfl
  | succ n ih =>
    intro i
    simp only [pollRun]
    rw [if_neg (h i), ih (i + 1)]

theorem pollRun_first_match (reads : Nat → Nat) (mask mv : Nat) :
    ∀ n fuel i, n < fuel → reads (i + n) &&& mask = mv →
      (∀ j, j < n → reads (i + j) &&& mask ≠ mv) →
      pollRun reads mask mv i fuel = (true, n + 1) := by
  intro n
  induction n with
  | zero =>
    intro fuel i hlt hm _
    cases fuel with
    | zero => exact absurd hlt (Nat.not_lt_zero _)
    | succ f =>
      simp only [pollRun]
      rw [if_pos (by simpa using hm)]
  | succ m ih =>
    intro fuel i hlt hm hpre
    cases fuel with
    | zero => exact absurd hlt (Nat.not_lt_zero _)
    | succ f =>
      have h0 : reads i &&& mask ≠ mv := by simpa using hpre 0 (Nat.succ_pos m)
      have hm2 : reads (i + 1 + m) &&& mask = mv := by
        have he : i + 1 + m = i + (m + 1) := by omega
        rw [he]; exact hm
      have hpre2 : ∀ j, j < m → reads (i + 1 + j) &&& mask ≠ mv := by
        intro j hj
        have he : i + 1 + j = i + (j + 1) := by omega
        rw [he]
        exact hpre (j + 1) (by omega)
      simp only [pollRun]
      rw [if_neg h0, ih f (i + 1) (by omega) hm2 hpre2]

theorem pollRun_match_within (reads : Nat → Nat) (mask mv : Nat) :
    ∀ fuel i, (∃ j, j < fuel ∧ reads (i + j) &&& mask = mv) →
      (pollRun reads mask mv i fuel).1 = true := by
  intro fuel
  induction fuel with
  | zero =>
    rintro i ⟨j, hj, _⟩
    exact absurd hj (Nat.not_lt_zero _)
  | succ f ih =>
    rintro i ⟨j, hj, hm⟩
    by_cases h0 : reads i &&& mask = mv
    · simp only [pollRun]
      rw [if_pos h0]
    · simp only [pollRun]
      rw [if_neg h0]
      apply ih (i + 1)
      cases j with
      | zero => exact absurd (by simpa using hm) h0
      | succ m =>
        refine ⟨m, by omega, ?_⟩
        have he : i + 1 + m = i + (m + 1) := by omega
        rw [he]; exact hm

theorem runBatch_success_length {σ : Type}
    (step : σ → SDMRegisterAccess → SDMReturnCode × σ) :
    ∀ (as : List SDMRegisterAccess) (s : σ),
      (runBatch step as s).1 = SDMReturnCode.Success →
      (runBatch step as s).2.1 = as.length := by
  intro as
  induction as with
  | nil => intro s _; rfl
  | cons a rest ih =>
    intro s h
    simp only [runBatch] at h ⊢
    by_cases hc : (step s a).1 = SDMReturnCode.Success
    · rw [if_pos hc] at h ⊢
      have h2 : (runBatch step rest (step s a).2).1 = SDMReturnCode.Success := h
      have := ih (step s a).2 h2
      simp only [List.length_cons]
      exact congrArg (fun t => t + 1) this
    · rw [if_neg hc] at h
      exact absurd h hc

theorem runBatch_append_fail {σ : Type}
    (step : σ → SDMRegisterAccess → SDMReturnCode × σ) :
    ∀ (pre : List SDMRegisterAccess) (s0 : σ) (a : SDMRegisterAccess)
      (post : List SDMRegisterAccess) (c : SDMReturnCode) (s1 : σ),
      (runBatch step pre s0).1 = SDMReturnCode.Success →
      step (runBatch step pre s0).2.2 a = (c, s1) →
      c ≠ SDMReturnCode.Success →
      runBatch step (pre ++ a :: post) s0 = (c, pre.length, s1) := by
  intro pre
  induction pre with
  | nil =>
    intro s0 a post c s1 _ hstep hc
    have hstep2 : step s0 a = (c, s1) := hstep
    simp only [List.nil_append, runBatch]
    rw [hstep2]
    rw [if_neg (by simpa using hc)]
    rfl
  | cons p ps ih =>
    intro s0 a post c s1 h hstep hc
    simp only [runBatch] at h hstep
    by_cases hp : (step s0 p).1 = SDMReturnCode.Success
    · rw [if_pos hp] at h hstep
      have h2 : (runBatch step ps (step s0 p).2).1 = SDMReturnCode.Success := h
      have hstep2 : step (runBatch step ps (step s0 p).2).2.2 a = (c, s1) := hstep
      have hrec := ih (step s0 p).2 a post c s1 h2 hstep2 hc
      show runBatch step (p :: (ps ++ a :: post)) s0 = (c, ps.length + 1, s1)
      simp only [runBatch]
      rw [if_pos hp, hrec]
    · rw [if_neg hp] at h
      exact absurd h hp

theorem fillForm_get (resp : SDMUserResponse) :
    ∀ (es : List SDMFormElement) (j i : Nat),
      (fillForm resp j es)[i]? = (es[i]?).map (fillElement resp (j + i)) := by
  intro es
  induction es with
  | nil => intro j i; simp [fillForm]
  | cons e rest ih =>
    intro j i
    cases i with
    | zero => simp [fillForm]
    | succ m =>
      simp only [fillForm, List.getElem?_cons_succ]
      rw [ih (j + 1) m]
      have he : j + 1 + m = j + (m + 1) := by omega
      rw [he]

theorem validInitial_of_all :
    ∀ {es : List SDMFormElement} {i : Nat} {e : SDMFormElement},
      es.all validInitial = true → es[i]? = some e → validInitial e = true := by
  intro es
  induction es with
  | nil => intro i e _ h; simp at h
  | cons x rest ih =>
    intro i e hall h
    simp only [List.all_cons, Bool.and_eq_true] at hall
    cases i with
    | zero =>
      simp only [List.getElem?_cons_zero, Option.some.injEq] at h
      exact h ▸ hall.1
    | succ m => exact ih hall.2 (by simpa using h)

theorem normSelection_valid (k : Nat) (s : Int) :
    normSelection k s = -1 ∨ 0 ≤ normSelection k s ∧ normSelection k s < (k : Int) := by
  unfold normSelection
  by_cases h : s = -1 ∨ (0 ≤ s ∧ s < (k : Int))
  · rw [if_pos h]; exact h
  · rw [if_neg h]; left; rfl

theorem presentForm_success {resp : SDMUserResponse} {form : SDMForm}
    (h : (presentForm resp form).1 = SDMReturnCode.Success) :
    form.elements.all validInitial = true ∧ resp.cancelled = false ∧
    (presentForm resp form).2 = fillForm resp 0 form.elements := by
  unfold presentForm at h ⊢
  by_cases hall : form.elements.all validInitial = true
  · rw [if_pos hall] at h ⊢
    by_cases hc : resp.cancelled = true
    · rw [if_pos hc] at h
      exact absurd h (by simp)
    · rw [if_neg hc] at h ⊢
      exact ⟨hall, by simpa using hc, rfl⟩
  · rw [if_neg hall] at h
    exact absurd h (by simp)

theorem presentForm_invalid {resp : SDMUserResponse} {form : SDMForm}
    (hall : form.elements.all validInitial = false) :
    presentForm resp form = (SDMReturnCode.InvalidArgument, []) := by
  unfold presentForm
  rw [if_neg (by simp [hall])]

/-- Claim C1: for a register-access batch of N entries executed in order
against one device, if entry k (1-indexed) is the first entry to fail,
the call returns that entry's failure code and reports k-1 completed
accesses, with no later entry executed; an empty batch succeeds with 0
completed accesses; and on overall success the completed count equals
the access count. -/
theorem sdm_C1_register_batch {σ : Type}
    (step : σ → SDMRegisterAccess → SDMReturnCode × σ) (s0 : σ) :
    runBatch step [] s0 = (SDMReturnCode.Success, 0, s0)
    ∧ (∀ as, (runBatch step as s0).1 = SDMReturnCode.Success →
        (runBatch step as s0).2.1 = as.length)
    ∧ (∀ pre a post c s1,
        (runBatch step pre s0).1 = SDMReturnCode.Success →
        step (runBatch step pre s0).2.2 a = (c, s1) →
        c ≠ SDMReturnCode.Success →
        runBatch step (pre ++ a :: post) s0 = (c, pre.length, s1)) := by
  refine ⟨rfl, ?_, ?_⟩
  · intro as h
    exact runBatch_success_length step as s0 h
  · intro pre a post c s1 h1 h2 h3
    exact runBatch_append_fail step pre s0 a post c s1 h1 h2 h3

/-- Concrete instantiation of `sdm_C1_register_batch`: against the demo
register file, a one-entry successful prefix followed by a faulting read
at address 200 aborts the three-entry batch with `TransferFault` and one
completed access, independently of the trailing entry; the empty batch
succeeds with zero completed; a fully successful batch completes all its
entries. -/
theorem sdm_C1_register_batch_witness :
    (runBatch (regStep 5 32) [⟨1, .Read, 0, 0, 0⟩] demoRegs).1 = SDMReturnCode.Success
    ∧ regStep 5 32 (runBatch (regStep 5 32) [⟨1, .Read, 0, 0, 0⟩] demoRegs).2.2
        ⟨200, .Read, 0, 0, 0⟩ = (SDMReturnCode.TransferFault, demoRegs)
    ∧ runBatch (regStep 5 32)
        ([⟨1, .Read, 0, 0, 0⟩] ++ ⟨200, .Read, 0, 0, 0⟩ :: [⟨2, .Read, 0, 0, 0⟩]) demoRegs
        = (SDMReturnCode.TransferFault, 1, demoRegs)
    ∧ runBatch (regStep 5 32) [] demoRegs = (SDMReturnCode.Success, 0, demoRegs)
    ∧ (runBatch (regStep 5 32) [⟨1, .Read, 0, 0, 0⟩, ⟨2, .Write, 9, 0, 0⟩] demoRegs).2.1 = 2 := by
  refine ⟨by decide, rfl, ?_, ?_, ?_⟩
  · exact (sdm_C1_register_batch (regStep 5 32) demoRegs).2.2
      [⟨1, .Read, 0, 0, 0⟩] ⟨200, .Read, 0, 0, 0⟩ [⟨2, .Read, 0, 0, 0⟩]
      SDMReturnCode.TransferFault demoRegs (by decide) rfl (by decide)
  · exact (sdm_C1_register_batch (regStep 5 32) demoRegs).1
  · exact (sdm_C1_register_batch (regStep 5 32) demoRegs).2.1
      [⟨1, .Read, 0, 0, 0⟩, ⟨2, .Write, 9, 0, 0⟩] (by decide)

/-- Claim C2: for a Poll entry the register is repeatedly read, each read
value is ANDed with the poll mask and compared with the entry's match
value, and polling stops on the first match; with a positive retry
budget R and a register whose masked value never matches, exactly R
reads are performed (so no more than R) before the entry fails; with a
zero retry budget the applied bound is only the host-imposed ceiling, so
a register that eventually matches succeeds under a sufficient
ceiling — the entry never fails purely from exhausting a retry
budget. -/
theorem sdm_C2_poll_semantics (reads : Nat → Nat) (mask mv : Nat) :
    (∀ n fuel, n < fuel → reads n &&& mask = mv →
      (∀ j, j < n → reads j &&& mask ≠ mv) →
      pollRun reads mask mv 0 fuel = (true, n + 1))
    ∧ (∀ retries ceiling, 0 < retries → (∀ j, reads j &&& mask ≠ mv) →
      pollRun reads mask mv 0 (pollBound retries ceiling) = (false, retries))
    ∧ (∀ n, reads n &&& mask = mv →
      ∃ ceiling, (pollRun reads mask mv 0 (pollBound 0 ceiling)).1 = true) := by
  refine ⟨?_, ?_, ?_⟩
  · intro n fuel hlt hm hpre
    have hm0 : reads (0 + n) &&& mask = mv := by simpa using hm
    have hpre0 : ∀ j, j < n → reads (0 + j) &&& mask ≠ mv := by
      intro j hj; simpa using hpre j hj
    exact pollRun_first_match reads mask mv n fuel 0 hlt hm0 hpre0
  · intro retries ceiling hpos hnm
    have hb : pollBound retries ceiling = retries := by
      unfold pollBound
      rw [if_neg (by omega)]
    rw [hb]
    exact pollRun_no_match reads mask mv hnm retries 0
  · intro n hm
    refine ⟨n + 1, ?_⟩
    have hb : pollBound 0 (n + 1) = n + 1 := rfl
    rw [hb]
    exact pollRun_match_within reads mask mv (n + 1) 0 ⟨n, by omega, by simpa using hm⟩

/-- Concrete instantiation of `sdm_C2_poll_semantics`: a register stream
matching first on its third read is detected after exactly 3 reads given
4 allowed; a never-matching register with retry budget 3 fails after
exactly 3 reads; with retry budget 0 the eventually-matching stream
succeeds under some host ceiling. -/
theorem sdm_C2_poll_semantics_witness :
    (2 : Nat) < 4
    ∧ (fun j => if j = 2 then 5 else 0) 2 &&& 7 = 5
    ∧ pollRun (fun j => if j = 2 then 5 else 0) 7 5 0 4 = (true, 3)
    ∧ pollRun (fun _ => 0) 7 5 0 (pollBound 3 10) = (false, 3)
    ∧ ∃ ceiling, (pollRun (fun j => if j = 2 then 5 else 0) 7 5 0 (pollBound 0 ceiling)).1 = true := by
  refine ⟨by decide, by decide, ?_, ?_, ?_⟩
  · exact (sdm_C2_poll_semantics (fun j => if j = 2 then 5 else 0) 7 5).1 2 4
      (by decide) (by decide) (by decide)
  · exact (sdm_C2_poll_semantics (fun _ => 0) 7 5).2.1 3 10 (by decide)
      (fun j => by decide)
  · exact (sdm_C2_poll_semantics (fun j => if j = 2 then 5 else 0) 7 5).2.2 2 (by decide)

/-- Claim C3: a CoreSight component descriptor referencing MEM-AP M with
base address B resolves a requested offset O below 4096 to
base_of(M) + B + O; with the MEM-AP reference absent it resolves to the
owning debug port's own address space plus B + O; an offset of 4096 or
more fails with `InvalidArgument`. -/
theorem sdm_C3_component_resolution (env : ResolveEnv)
    (arch : SDMDebugArchitecture) (dp apDp apAddr bAddr off : Nat) :
    (off < coreSightRegionSize →
      resolveAddr env arch
        (.armCoreSightComponent dp (some (.armAP apDp apAddr)) bAddr) off
        = .ok (resolveBase env arch (.armAP apDp apAddr) + bAddr + off))
    ∧ (off < coreSightRegionSize →
      resolveAddr env arch (.armCoreSightComponent dp none bAddr) off
        = .ok (env.dpBase dp + bAddr + off))
    ∧ (∀ memAp, coreSightRegionSize ≤ off →
      resolveAddr env arch (.armCoreSightComponent dp memAp bAddr) off
        = .error SDMReturnCode.InvalidArgument) := by
  refine ⟨?_, ?_, ?_⟩
  · intro h
    unfold resolveAddr
    rw [if_pos h]
    rfl
  · intro h
    unfold resolveAddr
    rw [if_pos h]
    rfl
  · intro memAp h
    unfold resolveAddr
    rw [if_neg (by omega)]

/-- Concrete instantiation of `sdm_C3_component_resolution` in the demo
environment: offset 5 of a component at base 256 behind AP 1 of DP 0
resolves to the AP's base plus 256 plus 5; without a MEM-AP reference it
resolves into DP 0's own space; offset 4096 is rejected with
`InvalidArgument`. -/
theorem sdm_C3_component_resolution_witness :
    (5 : Nat) < coreSightRegionSize
    ∧ resolveAddr demoEnv .ArmADIv6
        (.armCoreSightComponent 0 (some (.armAP 0 1)) 256) 5
        = .ok (resolveBase demoEnv .ArmADIv6 (.armAP 0 1) + 256 + 5)
    ∧ resolveAddr demoEnv .ArmADIv6 (.armCoreSightComponent 0 none 256) 5
        = .ok (demoEnv.dpBase 0 + 256 + 5)
    ∧ resolveAddr demoEnv .ArmADIv6
        (.armCoreSightComponent 0 (some (.armAP 0 1)) 256) 4096
        = .error SDMReturnCode.InvalidArgument := by
  refine ⟨by decide, ?_, ?_, ?_⟩
  · exact (sdm_C3_component_resolution demoEnv .ArmADIv6 0 0 1 256 5).1 (by decide)
  · exact (sdm_C3_component_resolution demoEnv .ArmADIv6 0 0 1 256 5).2.1 (by decide)
  · exact (sdm_C3_component_resolution demoEnv .ArmADIv6 0 0 1 256 4096).2.2
      (some (.armAP 0 1)) (by decide)

/-- Claim C4: calling Authenticate before Open, or any operation
(GetTargetProtectionState, Authenticate, ResumeBoot, Close) on a handle
after Close, fails deterministically with `RequestFailed` and leaves the
session state unchanged. -/
theorem sdm_C4_state_machine (b : SDMPluginBehavior) :
    (∀ params, sdmStep b .preOpen (.opAuthenticate params)
      = (SDMReturnCode.RequestFailed, .preOpen))
    ∧ (∀ op, sdmStep b .closedPhase op = (SDMReturnCode.RequestFailed, .closedPhase)) :=
  ⟨fun _ => rfl, fun _ => rfl⟩

/-- Claim C5: every entry of a register-access batch is executed at the
single transfer width given by the call's transferSize parameter, and in
SDM API v1.0 only 32-bit transfers are allowed: a batch requesting any
other width fails with `UnsupportedTransferSize` and completes no
entries. -/
theorem sdm_C5_transfer_width (ceiling : Nat) (f : RegFile) (ts : Nat)
    (accesses : List SDMRegisterAccess) :
    (ts ≠ SDMTransferSize_32 →
      registerAccess ceiling f ts accesses
        = (SDMReturnCode.UnsupportedTransferSize, 0, f))
    ∧ registerAccess ceiling f SDMTransferSize_32 accesses
        = runBatch (regStep ceiling SDMTransferSize_32) accesses f := by
  constructor
  · intro h
    unfold registerAccess
    rw [if_neg h]
  · rfl

/-- Concrete instantiation of `sdm_C5_transfer_width`: a 16-bit batch
against the demo register file is rejected with
`UnsupportedTransferSize` and zero completed accesses, while a 32-bit
batch is executed entry by entry at width 32. -/
theorem sdm_C5_transfer_width_witness :
    (16 : Nat) ≠ SDMTransferSize_32
    ∧ registerAccess 5 demoRegs 16 [⟨1, .Read, 0, 0, 0⟩]
        = (SDMReturnCode.UnsupportedTransferSize, 0, demoRegs)
    ∧ registerAccess 5 demoRegs SDMTransferSize_32 [⟨1, .Read, 0, 0, 0⟩]
        = runBatch (regStep 5 SDMTransferSize_32) [⟨1, .Read, 0, 0, 0⟩] demoRegs := by
  refine ⟨by decide, ?_, ?_⟩
  · exact (sdm_C5_transfer_width 5 demoRegs 16 [⟨1, .Read, 0, 0, 0⟩]).1 (by decide)
  · exact (sdm_C5_transfer_width 5 demoRegs 32 [⟨1, .Read, 0, 0, 0⟩]).2

/-- Claim C6: a ReadMemory/WriteMemory call performs transferCount
consecutive transfers of transferSize bits, transferSize being one of
8, 16, 32 or 64 (each unit spanning transferSize/8 bytes), the n-th
transfer at address + n times the unit's byte size; an address not
aligned to the transfer size fails with `InvalidArgument`, and any other
width fails with `UnsupportedTransferSize`. -/
theorem sdm_C6_memory_transfers (mem : Nat → Nat)
    (address ts count b : Nat) (data : Nat → Nat) :
    (transferSizeBytes ts = some b →
      8 * b = ts ∧ (ts = 8 ∨ ts = 16 ∨ ts = 32 ∨ ts = 64))
    ∧ (transferSizeBytes ts = some b → address % b = 0 →
      readMemory mem address ts count
        = .ok ((List.range count).map fun n => readUnit mem (address + n * b) b))
    ∧ (transferSizeBytes ts = some b → address % b ≠ 0 →
      readMemory mem address ts count = .error SDMReturnCode.InvalidArgument
      ∧ writeMemory mem address ts count data = .error SDMReturnCode.InvalidArgument)
    ∧ (transferSizeBytes ts = none →
      readMemory mem address ts count = .error SDMReturnCode.UnsupportedTransferSize
      ∧ writeMemory mem address ts count data
        = .error SDMReturnCode.UnsupportedTransferSize) := by
  refine ⟨?_, ?_, ?_, ?_⟩
  · intro h
    unfold transferSizeBytes at h
    by_cases h8 : ts = 8
    · rw [if_pos h8] at h
      simp only [Option.some.injEq] at h
      omega
    · rw [if_neg h8] at h
      by_cases h16 : ts = 16
      · rw [if_pos h16] at h
        simp only [Option.some.injEq] at h
        omega
      · rw [if_neg h16] at h
        by_cases h32 : ts = 32
        · rw [if_pos h32] at h
          simp only [Option.some.injEq] at h
          omega
        · rw [if_neg h32] at h
          by_cases h64 : ts = 64
          · rw [if_pos h64] at h
            simp only [Option.some.injEq] at h
            omega
          · rw [if_neg h64] at h
            exact absurd h (by simp)
  · intro h ha
    unfold readMemory
    rw [h]
    dsimp only
    rw [if_pos ha]
  · intro h ha
    constructor
    · unfold readMemory
      rw [h]
      dsimp only
      rw [if_neg ha]
    · unfold writeMemory
      rw [h]
      dsimp only
      rw [if_neg ha]
  · intro h
    constructor
    · unfold readMemory
      rw [h]
    · unfold writeMemory
      rw [h]

/-- Concrete instantiation of `sdm_C6_memory_transfers`: 16-bit units
span 2 bytes each; two 16-bit reads at aligned address 6 yield the units
at byte addresses 6 and 8; the unaligned address 7 is rejected with
`InvalidArgument`; width 12 is rejected with `UnsupportedTransferSize`. -/
theorem sdm_C6_memory_transfers_witness :
    transferSizeBytes 16 = some 2
    ∧ (8 : Nat) * 2 = 16
    ∧ readMemory (fun a => a) 6 16 2
        = .ok ((List.range 2).map fun n => readUnit (fun a => a) (6 + n * 2) 2)
    ∧ readMemory (fun a => a) 7 16 2 = .error SDMReturnCode.InvalidArgument
    ∧ writeMemory (fun a => a) 7 16 2 (fun n => n)
        = .error SDMReturnCode.InvalidArgument
    ∧ readMemory (fun a => a) 0 12 1 = .error SDMReturnCode.UnsupportedTransferSize := by
  refine ⟨by decide, by decide, ?_, ?_, ?_, ?_⟩
  · exact (sdm_C6_memory_transfers (fun a => a) 6 16 2 2 (fun n => n)).2.1
      (by decide) (by decide)
  · exact ((sdm_C6_memory_transfers (fun a => a) 7 16 2 2 (fun n => n)).2.2.1
      (by decide) (by decide)).1
  · exact ((sdm_C6_memory_transfers (fun a => a) 7 16 2 2 (fun n => n)).2.2.1
      (by decide) (by decide)).2
  · exact ((sdm_C6_memory_transfers (fun a => a) 0 12 1 2 (fun n => n)).2.2.2
      (by decide)).1

/-- Claim C7: on an open session handle, Close always returns `Success`,
transitions the session to the Closed state, after which no plugin-owned
resources are held, and is terminal: every further operation on the
handle is rejected with `RequestFailed` and the state stays Closed. -/
theorem sdm_C7_close_terminal (b : SDMPluginBehavior) (n : Nat) (rs : List Nat) :
    sdmStep b (.openedPhase n rs) .opClose = (SDMReturnCode.Success, .closedPhase)
    ∧ heldResources .closedPhase = []
    ∧ (∀ op, sdmStep b .closedPhase op = (SDMReturnCode.RequestFailed, .closedPhase)) :=
  ⟨rfl, rfl, fun _ => rfl⟩

/-- Claim C8: for Arm ADI Access Port descriptors under ADIv5 (v1 APs)
only the low 8 bits of the 64-bit address field are significant — two AP
descriptors with equal DP index whose addresses are congruent modulo 256
have the same effective AP address and resolve identically — while under
ADIv6 the full 64-bit AP base address is significant: distinct addresses
below 2^64 have distinct effective addresses. -/
theorem sdm_C8_ap_address_significance (env : ResolveEnv) (dp a1 a2 : Nat) :
    (a1 % 256 = a2 % 256 →
      apEffectiveAddress .ArmADIv5 a1 = apEffectiveAddress .ArmADIv5 a2
      ∧ resolveBase env .ArmADIv5 (.armAP dp a1)
        = resolveBase env .ArmADIv5 (.armAP dp a2))
    ∧ (a1 < 2 ^ 64 → a2 < 2 ^ 64 →
      apEffectiveAddress .ArmADIv6 a1 = apEffectiveAddress .ArmADIv6 a2 →
      a1 = a2) := by
  constructor
  · intro h
    have he : apEffectiveAddress .ArmADIv5 a1 = apEffectiveAddress .ArmADIv5 a2 := h
    refine ⟨he, ?_⟩
    show env.apBase dp (apEffectiveAddress .ArmADIv5 a1)
      = env.apBase dp (apEffectiveAddress .ArmADIv5 a2)
    rw [he]
  · intro h1 h2 h
    have e1 : apEffectiveAddress .ArmADIv6 a1 = a1 := Nat.mod_eq_of_lt h1
    have e2 : apEffectiveAddress .ArmADIv6 a2 = a2 := Nat.mod_eq_of_lt h2
    rw [e1, e2] at h
    exact h

/-- Concrete instantiation of `sdm_C8_ap_address_significance`: under
ADIv5, AP addresses 3 and 259 (congruent mod 256) on DP 0 resolve to the
same base in the demo environment; under ADIv6 the effective address
determines the full address below 2^64. -/
theorem sdm_C8_ap_address_significance_witness :
    (3 : Nat) % 256 = 259 % 256
    ∧ resolveBase demoEnv .ArmADIv5 (.armAP 0 3)
        = resolveBase demoEnv .ArmADIv5 (.armAP 0 259)
    ∧ (5 : Nat) < 2 ^ 64
    ∧ (5 : Nat) = 5 := by
  refine ⟨by decide, ?_, by decide, ?_⟩
  · exact ((sdm_C8_ap_address_significance demoEnv 0 3 259).1 (by decide)).2
  · exact (sdm_C8_ap_address_significance demoEnv 0 5 5).2 (by decide) (by decide) rfl

/-- Claim C9: for every item-select element of a successfully presented
form, the selection index slot is zero-based and is either -1, meaning
no selection, or a valid index below the item count — both for the input
initial selection and for the output selection. -/
theorem sdm_C9_selection_convention (resp : SDMUserResponse) (form : SDMForm)
    (i k : Nat) (s0 : Int)
    (hsucc : (presentForm resp form).1 = SDMReturnCode.Success)
    (helem : form.elements[i]? = some (.itemSelect k s0)) :
    (s0 = -1 ∨ 0 ≤ s0 ∧ s0 < (k : Int))
    ∧ ∃ s : Int, (presentForm resp form).2[i]? = some (.itemSelect s)
        ∧ (s = -1 ∨ 0 ≤ s ∧ s < (k : Int)) := by
  obtain ⟨hall, _, hout⟩ := presentForm_success hsucc
  constructor
  · have hv := validInitial_of_all hall helem
    simpa [validInitial] using hv
  · refine ⟨normSelection k (resp.selection i), ?_,
      normSelection_valid k (resp.selection i)⟩
    rw [hout, fillForm_get resp form.elements 0 i, helem]
    simp [fillElement]

/-- Concrete instantiation of `sdm_C9_selection_convention`: a
successfully presented one-element form whose item-select has 3 items
and initial selection -1 yields an output selection that is -1 or a
valid zero-based index below 3. -/
theorem sdm_C9_selection_convention_witness :
    (presentForm demoResp ⟨0, [.itemSelect 3 (-1)]⟩).1 = SDMReturnCode.Success
    ∧ ((-1 : Int) = -1 ∨ 0 ≤ (-1 : Int) ∧ (-1 : Int) < ((3 : Nat) : Int))
    ∧ ∃ s : Int,
        (presentForm demoResp ⟨0, [.itemSelect 3 (-1)]⟩).2[0]? = some (.itemSelect s)
        ∧ (s = -1 ∨ 0 ≤ s ∧ s < ((3 : Nat) : Int)) := by
  refine ⟨by decide, ?_⟩
  exact sdm_C9_selection_convention demoResp ⟨0, [.itemSelect 3 (-1)]⟩ 0 3 (-1)
    (by decide) (by decide)

/-- Claim C10: for every text-field and path-select element with declared
buffer length L, a successful presentForm leaves in the buffer a string
of at most L - 1 content bytes, so at most L bytes are written including
the terminating null, and L is positive; an element declaring a buffer
length of 0 violates its precondition and the form is rejected with
`InvalidArgument`. -/
theorem sdm_C10_buffer_bounds (resp : SDMUserResponse) (form : SDMForm)
    (i len : Nat) (init : List Nat) (flag : Bool) :
    ((presentForm resp form).1 = SDMReturnCode.Success →
      form.elements[i]? = some (.textField len init flag) →
      0 < len ∧ ∃ cs, (presentForm resp form).2[i]? = some (.textField cs)
        ∧ cs.length ≤ len - 1 ∧ cs.length + 1 ≤ len)
    ∧ ((presentForm resp form).1 = SDMReturnCode.Success →
      form.elements[i]? = some (.pathSelect len init flag) →
      0 < len ∧ ∃ cs, (presentForm resp form).2[i]? = some (.pathSelect cs)
        ∧ cs.length ≤ len - 1 ∧ cs.length + 1 ≤ len)
    ∧ (form.elements[i]? = some (.textField 0 init flag) →
      (presentForm resp form).1 = SDMReturnCode.InvalidArgument)
    ∧ (form.elements[i]? = some (.pathSelect 0 init flag) →
      (presentForm resp form).1 = SDMReturnCode.InvalidArgument) := by
  refine ⟨?_, ?_, ?_, ?_⟩
  · intro hsucc helem
    obtain ⟨hall, _, hout⟩ := presentForm_success hsucc
    have hv := validInitial_of_all hall helem
    simp only [validInitial, Bool.and_eq_true, decide_eq_true_eq] at hv
    obtain ⟨hpos, _⟩ := hv
    refine ⟨hpos, (resp.text i).take (len - 1), ?_, ?_, ?_⟩
    · rw [hout, fillForm_get resp form.elements 0 i, helem]
      simp [fillElement]
    · have hlen := List.length_take (len - 1) (resp.text i)
      omega
    · have hlen := List.length_take (len - 1) (resp.text i)
      omega
  · intro hsucc helem
    obtain ⟨hall, _, hout⟩ := presentForm_success hsucc
    have hv := validInitial_of_all hall helem
    simp only [validInitial, Bool.and_eq_true, decide_eq_true_eq] at hv
    obtain ⟨hpos, _⟩ := hv
    refine ⟨hpos, (resp.path i).take (len - 1), ?_, ?_, ?_⟩
    · rw [hout, fillForm_get resp form.elements 0 i, helem]
      simp [fillElement]
    · have hlen := List.length_take (len - 1) (resp.path i)
      omega
    · have hlen := List.length_take (len - 1) (resp.path i)
      omega
  · intro helem
    cases hb : form.elements.all validInitial with
    | false => rw [presentForm_invalid hb]
    | true =>
      have hv := validInitial_of_all hb helem
      simp [validInitial] at hv
  · intro helem
    cases hb : form.elements.all validInitial with
    | false => rw [presentForm_invalid hb]
    | true =>
      have hv := validInitial_of_all hb helem
      simp [validInitial] at hv

/-- Concrete instantiation of `sdm_C10_buffer_bounds`: a successful form
with a 4-byte text field and a 4-byte path field stores at most 3
content bytes (4 with the null) in each buffer; forms declaring a 0-byte
text or path buffer are rejected with `InvalidArgument`. -/
theorem sdm_C10_buffer_bounds_witness :
    (presentForm demoResp ⟨0, [.textField 4 [] false, .pathSelect 4 [] false]⟩).1
      = SDMReturnCode.Success
    ∧ ((0 : Nat) < 4 ∧ ∃ cs,
        (presentForm demoResp
          ⟨0, [.textField 4 [] false, .pathSelect 4 [] false]⟩).2[0]?
          = some (.textField cs)
        ∧ cs.length ≤ 4 - 1 ∧ cs.length + 1 ≤ 4)
    ∧ ((0 : Nat) < 4 ∧ ∃ cs,
        (presentForm demoResp
          ⟨0, [.textField 4 [] false, .pathSelect 4 [] false]⟩).2[1]?
          = some (.pathSelect cs)
        ∧ cs.length ≤ 4 - 1 ∧ cs.length + 1 ≤ 4)
    ∧ (presentForm demoResp ⟨0, [.textField 0 [] false]⟩).1
        = SDMReturnCode.InvalidArgument
    ∧ (presentForm demoResp ⟨0, [.pathSelect 0 [] false]⟩).1
        = SDMReturnCode.InvalidArgument := by
  refine ⟨by decide, ?_, ?_, ?_, ?_⟩
  · exact (sdm_C10_buffer_bounds demoResp
      ⟨0, [.textField 4 [] false, .pathSelect 4 [] false]⟩ 0 4 [] false).1
      (by decide) (by decide)
  · exact (sdm_C10_buffer_bounds demoResp
      ⟨0, [.textField 4 [] false, .pathSelect 4 [] false]⟩ 1 4 [] false).2.1
      (by decide) (by decide)
  · exact (sdm_C10_buffer_bounds demoResp ⟨0, [.textField 0 [] false]⟩
      0 0 [] false).2.2.1 (by decide)
  · exact (sdm_C10_buffer_bounds demoResp ⟨0, [.pathSelect 0 [] false]⟩
      0 0 [] false).2.2.2 (by decide)
